import Mathlib

/-!
Verification of the real-time chat client core (Chat.jsx and its near-identical
variants) together with a spec-modelled History Service for the server routes.

The client component state and its handlers (onReceiveMessage, handleRoomSwitch,
sendMessage, loadOlderMessages, validateFile, the typing-indicator effect) are
embedded as pure functions over an explicit state record; asynchronous outcomes
(upload result, acknowledgement arrival, page responses) are passed in as
explicit parameters, and socket emissions are returned as an explicit effect
list.
-/

namespace ChatCore

/-- Sender-local delivery status of a message: the client annotates its own
optimistic copies with "sending", "delivered" or "failed". -/
inductive MsgStatus
  | sending
  | delivered
  | failed
deriving DecidableEq, Repr

/-- A chat message as the client handles it.  Timestamps are modelled as
natural numbers (milliseconds); ISO strings compare consistently with them.
Server-originated copies carry no sender-local status (status is none). -/
structure Message where
  id : String
  room : String
  sender : String
  text : String
  fileUrl : Option String
  timestamp : Nat
  status : Option MsgStatus
deriving DecidableEq, Repr

/-- File metadata seen by validateFile: size in bytes and MIME content type. -/
structure FileMeta where
  size : Nat
  type : String
deriving DecidableEq, Repr

/-- Socket emissions and other externally visible effects of a handler run. -/
inductive Effect
  | joinRoom (room user : String)
  | userTyping (room user : String)
  | userStopTyping (room user : String)
  | emitSend (m : Message)
  | upload
deriving DecidableEq, Repr

/-- The Chat component state (the useState fields of Chat.jsx that the claims
touch).  unreadCount is the per-room unread counter object, modelled as a
total function defaulting to 0 exactly as the JS `prev[room] || 0` read does. -/
structure ChatState where
  message : String
  messages : List Message
  currentRoom : String
  users : List String
  typingUsers : List String
  file : Option FileMeta
  unreadCount : String → Nat
  loadingOlder : Bool
  hasMoreOlder : Bool
  searchQuery : String
  loading : Bool
  error : Option String

/-- The JS String.prototype.trim builtin used by the component: strips
leading and trailing whitespace.  Defined structurally on the character list
so that it evaluates on concrete inputs. -/
def jsTrim (s : String) : String :=
  String.mk (((s.data.dropWhile Char.isWhitespace).reverse.dropWhile
    Char.isWhitespace).reverse)

/-- Handler for the receive_message socket event (Chat.jsx lines 187-190):
a message for another room bumps that room's unread counter; a message for
the current room is appended to the message list. -/
def onReceiveMessage (s : ChatState) (msg : Message) : ChatState :=
  if msg.room ≠ s.currentRoom then
    { s with unreadCount :=
        fun r => if r = msg.room then s.unreadCount msg.room + 1 else s.unreadCount r }
  else
    { s with messages := s.messages ++ [msg] }

/-- Room-switch handler (Chat.jsx lines 277-281): switching to the current
room is a guard-protected no-op; otherwise the room changes, the message list
and typing set reset, hasMoreOlder resets to true, and one join_room event is
emitted. -/
def handleRoomSwitch (user : String) (s : ChatState) (room : String) :
    ChatState × List Effect :=
  if room = s.currentRoom then (s, [])
  else
    ({ s with currentRoom := room, messages := [], hasMoreOlder := true,
              typingUsers := [] },
     [Effect.joinRoom room user])

/-- Maximum accepted attachment size, 5MB (Chat.jsx line 166). -/
def maxFileSize : Nat := 5 * 1024 * 1024

/-- The attachment content-type allow-list (Chat.jsx line 167). -/
def allowedTypes : List String :=
  ["image/jpeg", "image/png", "image/gif", "application/pdf", "image/webp"]

/-- Attachment validation (Chat.jsx lines 165-171): throws on oversize or
disallowed type, returns true otherwise.  Modelled with Except. -/
def validateFile (f : FileMeta) : Except String Bool :=
  if f.size > maxFileSize then Except.error "File size too large"
  else if f.type ∉ allowedTypes then Except.error "Invalid file type"
  else Except.ok true

/-- An acknowledgement payload as passed to the send_message socket callback. -/
structure AckPayload where
  success : Bool
  serverId : Option String
  error : Option String
deriving DecidableEq, Repr

/-- The 10-second acknowledgement bound of the send path (Chat.jsx line 235). -/
def sendTimeoutMs : Nat := 10000

/-- Outcome of the Promise.race between the acknowledgement and the timeout. -/
inductive RaceResult
  | acked (p : AckPayload)
  | timedOut
deriving DecidableEq, Repr

/-- Promise.race of the acknowledgement promise against the 10s timer
(Chat.jsx lines 233-236): an acknowledgement arriving t milliseconds after
submission wins only when t is below the bound; a late or absent
acknowledgement lets the timeout fire, whatever the payload says. -/
def race (ackArrival : Option (Nat × AckPayload)) : RaceResult :=
  match ackArrival with
  | none => RaceResult.timedOut
  | some (t, p) => if t < sendTimeoutMs then RaceResult.acked p else RaceResult.timedOut

/-- Environment of one sendMessage run: the client-generated local id, the
clock value used for the optimistic timestamp, the upload outcome (consulted
only when a file is attached) and the acknowledgement arrival, if any. -/
structure SendEnv where
  localId : String
  now : Nat
  uploadResult : Except String String
  ackArrival : Option (Nat × AckPayload)

/-- The catch-branch update of the message list (Chat.jsx line 242): every
entry carrying the local id is marked failed. -/
def markFailed (localId : String) (msgs : List Message) : List Message :=
  msgs.map fun m =>
    if m.id = localId then { m with status := some MsgStatus.failed } else m

/-- The acknowledgement-success update (Chat.jsx line 238): the entry carrying
the local id takes the server id (keeping the local id when none was supplied)
and becomes delivered. -/
def reconcile (localId : String) (serverId : Option String) (msgs : List Message) :
    List Message :=
  msgs.map fun m =>
    if m.id = localId then
      { m with id := serverId.getD m.id, status := some MsgStatus.delivered }
    else m

/-- Second half of sendMessage, from building msgData onward (Chat.jsx lines
227-243): push the optimistic copy, clear the input and the typing indicator,
emit send_message, then settle the race between acknowledgement and timeout. -/
def sendPhase (user : String) (s : ChatState) (env : SendEnv)
    (fileUrl : Option String) (effs : List Effect) : ChatState × List Effect :=
  let msgData : Message :=
    { id := env.localId, room := s.currentRoom, sender := user,
      text := jsTrim s.message, fileUrl := fileUrl, timestamp := env.now,
      status := some MsgStatus.sending }
  let s1 := { s with messages := s.messages ++ [msgData], message := "" }
  let effs := effs ++ [Effect.userStopTyping s.currentRoom user, Effect.emitSend msgData]
  match race env.ackArrival with
  | RaceResult.acked p =>
    if p.success then
      ({ s1 with messages := reconcile env.localId p.serverId s1.messages,
                 loading := false }, effs)
    else
      ({ s1 with error := some (p.error.getD "Failed"),
                 messages := markFailed env.localId s1.messages,
                 loading := false }, effs)
  | RaceResult.timedOut =>
      ({ s1 with error := some "Send timeout",
                 messages := markFailed env.localId s1.messages,
                 loading := false }, effs)

/-- The sendMessage submit handler (Chat.jsx lines 218-244).  An empty trimmed
message with no file, or a run already in flight, returns at once with no
state change and no effects.  Otherwise an attached file is validated and
uploaded before the send phase; a validation or upload failure lands in the
catch branch without any send_message emission. -/
def sendMessage (user : String) (s : ChatState) (env : SendEnv) :
    ChatState × List Effect :=
  if (jsTrim s.message = "" ∧ s.file = none) ∨ s.loading then (s, [])
  else
    let s0 := { s with loading := true, error := none }
    match s0.file with
    | some f =>
      match validateFile f with
      | Except.error e =>
          ({ s0 with error := some e,
                     messages := markFailed env.localId s0.messages,
                     loading := false }, [])
      | Except.ok _ =>
        match env.uploadResult with
        | Except.error e =>
            ({ s0 with error := some e,
                       messages := markFailed env.localId s0.messages,
                       loading := false }, [Effect.upload])
        | Except.ok _ =>
            sendPhase user { s0 with file := none } env
              (some (env.uploadResult.toOption.getD "")) [Effect.upload]
    | none => sendPhase user s0 env none []

/-- The loadOlderMessages handler (Chat.jsx lines 247-257), with the page
response passed in explicitly.  The returned Bool says whether a request was
issued at all: a run already in flight or an exhausted cursor returns without
requesting.  An empty page closes pagination; a non-empty page is prepended. -/
def loadOlderMessages (s : ChatState) (resp : Except String (List Message)) :
    ChatState × Bool :=
  if s.loadingOlder ∨ ¬ s.hasMoreOlder then (s, false)
  else
    match resp with
    | Except.ok older =>
        if older.isEmpty then ({ s with hasMoreOlder := false }, true)
        else ({ s with messages := older ++ s.messages }, true)
    | Except.error e => ({ s with error := some e }, true)

/-- The before cursor of loadOlderMessages (Chat.jsx line 251): the timestamp
of the oldest loaded message, or the current clock when the list is empty. -/
def computeBefore (s : ChatState) (now : Nat) : Nat :=
  match s.messages with
  | [] => now
  | m :: _ => m.timestamp

/-- The fetchMessages effect body of the component variants (runs on mount and
on every currentRoom change): the room's message list is replaced by the
fetched sequence and the room's unread counter is cleared. -/
def fetchMessages (s : ChatState) (fetched : List Message) : ChatState :=
  { s with messages := fetched,
           unreadCount := fun r => if r = s.currentRoom then 0 else s.unreadCount r,
           loading := false, error := none }

/-- State of the typing-indicator machinery for one (room, user) pair on the
sender side (Chat.jsx lines 260-267): the set of scheduled stop-typing timers
as (timer id, fire time) pairs, the typingTimeoutRef cell holding the id of
the last scheduled timer, a fresh-id counter, and the indicator value the room
observes (set by the user_typing emission, cleared by user_stop_typing). -/
structure TypingTimers where
  pending : List (Nat × Nat)
  ref : Option Nat
  nextId : Nat
  typing : Bool
deriving DecidableEq, Repr

/-- Initial typing state: no timers, empty ref, indicator off. -/
def typingInit : TypingTimers :=
  { pending := [], ref := none, nextId := 0, typing := false }

/-- clearTimeout on the id held in typingTimeoutRef: the matching scheduled
timer, if still pending, is cancelled. -/
def cancelRef (st : TypingTimers) : List (Nat × Nat) :=
  st.pending.filter fun p => ¬ st.ref = some p.1

/-- One run of the typing useEffect body (fires on every message-input change,
at clock value now): the previously scheduled timer is cleared first; with
non-empty trimmed input, user_typing is emitted (indicator on) and a fresh
stop-typing timer is scheduled 1000ms out, its id stored in the ref; with
empty input, user_stop_typing is emitted (indicator off). -/
def typingEffect (st : TypingTimers) (now : Nat) (hasText : Bool) : TypingTimers :=
  let cleared := cancelRef st
  if hasText then
    { pending := cleared ++ [(st.nextId, now + 1000)], ref := some st.nextId,
      nextId := st.nextId + 1, typing := true }
  else
    { st with pending := cleared, typing := false }

/-- Advance the clock to now: every pending timer due by now fires, emitting
user_stop_typing (indicator off); fired timers leave the pending set. -/
def fireTimers (st : TypingTimers) (now : Nat) : TypingTimers :=
  let fired := st.pending.filter fun p => p.2 ≤ now
  { st with pending := st.pending.filter fun p => ¬ p.2 ≤ now,
            typing := if fired.isEmpty then st.typing else false }

/-- The typing cleanup inside sendMessage (Chat.jsx lines 230-231): the
scheduled timer is cleared and user_stop_typing is emitted. -/
def sendClear (st : TypingTimers) : TypingTimers :=
  { st with pending := cancelRef st, typing := false }

/-- Well-formedness maintained by the effect runs: at most one stop-typing
timer is ever pending, and when one is, the ref holds its id. -/
def TypingTimers.wf (st : TypingTimers) : Prop :=
  st.pending = [] ∨ ∃ i t, st.pending = [(i, t)] ∧ st.ref = some i

/-- Recency ordering on messages: a precedes b when b is not newer. -/
def byRecency (a b : Message) : Prop := b.timestamp ≤ a.timestamp

instance : DecidableRel byRecency := fun a b => Nat.decLe b.timestamp a.timestamp

instance : IsTotal Message byRecency :=
  ⟨fun a b => Nat.le_total b.timestamp a.timestamp⟩

instance : IsTrans Message byRecency :=
  ⟨fun _ _ _ h1 h2 => Nat.le_trans h2 h1⟩

/-- Modelled from the spec: the History Service page operation (the server's
message route code is absent from src, only its client callers are present).
Following §4.5, page returns up to limit messages of the room strictly older
than before, chosen as the limit messages immediately preceding the cursor,
handed to the caller oldest-first, with hasMore false exactly when the
returned count is 0. -/
def page (store : List Message) (room : String) (limit : Nat) (before : Nat) :
    List Message × Bool :=
  let older :=
    ((store.filter fun m => decide (m.room = room ∧ m.timestamp < before)).insertionSort
      byRecency).take limit
  (older.reverse, ¬ older.isEmpty)

/-- Modelled from the spec: the default history fetch (limit 50, no before
cursor) of §4.5, returning the most recent 50 messages of the room in
chronological order; the serving route code is absent from src. -/
def defaultFetch (store : List Message) (room : String) : List Message :=
  (((store.filter fun m => decide (m.room = room)).insertionSort byRecency).take 50).reverse

/-- Concrete state used by witnesses: viewing room general with one older
message loaded and clean flags. -/
def baseState : ChatState :=
  { message := "", messages := [], currentRoom := "general", users := ["alice"],
    typingUsers := [], file := none, unreadCount := fun _ => 0,
    loadingOlder := false, hasMoreOlder := true, searchQuery := "",
    loading := false, error := none }

/-- Witness environment for C1: the upload succeeds and the acknowledgement
arrives after 12 seconds reporting success with a server id, i.e. the
server-side operation eventually succeeded, but only after the 10s bound. -/
def lateAckEnv : SendEnv :=
  { localId := "local-9", now := 3, uploadResult := Except.ok "http://blob/1",
    ackArrival := some (12000, { success := true, serverId := some "srv7", error := none }) }

/-- Witness state for C1: a valid small png is attached, so the submit guard
passes and the attachment step succeeds. -/
def fileSendState : ChatState :=
  { message := "", messages := [], currentRoom := "general", users := ["alice"],
    typingUsers := [], file := some { size := 10, type := "image/png" },
    unreadCount := fun _ => 0, loadingOlder := false, hasMoreOlder := true,
    searchQuery := "", loading := false, error := none }

/-- State for the C2 counterexample: whitespace-only input, no attachment. -/
def emptySubmitState : ChatState :=
  { message := "   ", messages := [], currentRoom := "general", users := [],
    typingUsers := [], file := none, unreadCount := fun _ => 0,
    loadingOlder := false, hasMoreOlder := true, searchQuery := "",
    loading := false, error := none }

/-- Environment whose outcomes are never consulted on the early-return path. -/
def idleEnv : SendEnv :=
  { localId := "local-1", now := 0, uploadResult := Except.error "unused",
    ackArrival := none }

/-- Modelled from the spec: the Delivery Pipeline broadcast step (the server
socket handler is absent from src).  After persistence the canonical message
is fanned out to all current members of the room, excluding none, so the
sender is among the recipients. -/
def broadcastRecipients (members : List String) : List String := members

/-- State for the C4 scenario: the sender has typed "hi" in room general. -/
def sendState : ChatState :=
  { message := "hi", messages := [], currentRoom := "general",
    users := ["alice", "bob"], typingUsers := [], file := none,
    unreadCount := fun _ => 0, loadingOlder := false, hasMoreOlder := true,
    searchQuery := "", loading := false, error := none }

/-- Environment for the C4 scenario: the acknowledgement arrives quickly and
carries the durable identity srv1. -/
def demoAckEnv : SendEnv :=
  { localId := "local-7", now := 40, uploadResult := Except.error "unused",
    ackArrival := some (100, { success := true, serverId := some "srv1", error := none }) }

/-- The canonical persisted copy of the C4 scenario message, as broadcast to
the room (carrying the durable identity, no sender-local status). -/
def canonicalMsg : Message :=
  { id := "srv1", room := "general", sender := "alice", text := "hi",
    fileUrl := none, timestamp := 41, status := none }

/-- Store of persisted messages used by the pagination witnesses: three
general-room messages at timestamps 10, 20, 30 and one tech-room message. -/
def demoStore : List Message :=
  [{ id := "a", room := "general", sender := "alice", text := "one",
     fileUrl := none, timestamp := 10, status := none },
   { id := "b", room := "general", sender := "bob", text := "two",
     fileUrl := none, timestamp := 20, status := none },
   { id := "c", room := "tech", sender := "bob", text := "three",
     fileUrl := none, timestamp := 15, status := none },
   { id := "d", room := "general", sender := "alice", text := "four",
     fileUrl := none, timestamp := 30, status := none }]

/-- Claim C9: a receive_message event for a room other than the viewed one
bumps exactly that room's unread counter by one and leaves the viewed message
list unchanged; an event for the viewed room appends the message and changes
no unread counter. -/
theorem receiveMessage_frame (s : ChatState) (msg : Message) :
    (msg.room ≠ s.currentRoom →
      (onReceiveMessage s msg).unreadCount msg.room = s.unreadCount msg.room + 1 ∧
      (∀ r, r ≠ msg.room → (onReceiveMessage s msg).unreadCount r = s.unreadCount r) ∧
      (onReceiveMessage s msg).messages = s.messages) ∧
    (msg.room = s.currentRoom →
      (onReceiveMessage s msg).messages = s.messages ++ [msg] ∧
      (onReceiveMessage s msg).unreadCount = s.unreadCount) := by
  constructor
  · intro h
    refine ⟨?_, ?_, ?_⟩ <;> simp [onReceiveMessage, h]
    intro r hr
    simp [hr]
  · intro h
    constructor <;> simp [onReceiveMessage, h]

/-- Witness for C9 at concrete inputs: a message for room random arrives while
general is viewed, and a message for general arrives while general is viewed. -/
theorem receiveMessage_frame_witness :
    ((onReceiveMessage baseState
        { id := "m1", room := "random", sender := "bob", text := "yo",
          fileUrl := none, timestamp := 7, status := none }).unreadCount "random" =
      baseState.unreadCount "random" + 1 ∧
     (∀ r, r ≠ "random" →
        (onReceiveMessage baseState
          { id := "m1", room := "random", sender := "bob", text := "yo",
            fileUrl := none, timestamp := 7, status := none }).unreadCount r =
          baseState.unreadCount r) ∧
     (onReceiveMessage baseState
        { id := "m1", room := "random", sender := "bob", text := "yo",
          fileUrl := none, timestamp := 7, status := none }).messages =
       baseState.messages) :=
  (receiveMessage_frame baseState
    { id := "m1", room := "random", sender := "bob", text := "yo",
      fileUrl := none, timestamp := 7, status := none }).1 (by decide)

/-- Claim C10: switching to the room already viewed is a complete no-op with
no emission; switching to another room sets that room, empties the message
list and typing set, resets hasMoreOlder, emits exactly one join_room event,
and leaves search query, unread counters and user list untouched. -/
theorem roomSwitch_frame (user : String) (s : ChatState) (room : String) :
    (room = s.currentRoom → handleRoomSwitch user s room = (s, [])) ∧
    (room ≠ s.currentRoom →
      (handleRoomSwitch user s room).1.currentRoom = room ∧
      (handleRoomSwitch user s room).1.messages = [] ∧
      (handleRoomSwitch user s room).1.hasMoreOlder = true ∧
      (handleRoomSwitch user s room).1.typingUsers = [] ∧
      (handleRoomSwitch user s room).2 = [Effect.joinRoom room user] ∧
      (handleRoomSwitch user s room).1.searchQuery = s.searchQuery ∧
      (handleRoomSwitch user s room).1.unreadCount = s.unreadCount ∧
      (handleRoomSwitch user s room).1.users = s.users) := by
  constructor
  · intro h
    simp [handleRoomSwitch, h]
  · intro h
    refine ⟨?_, ?_, ?_, ?_, ?_, ?_, ?_, ?_⟩ <;> simp [handleRoomSwitch, h]

/-- Witness for C10 at concrete inputs: switching general to general is the
identity with no emission. -/
theorem roomSwitch_frame_witness :
    handleRoomSwitch "alice" baseState "general" = (baseState, []) :=
  (roomSwitch_frame "alice" baseState "general").1 rfl

/-- Claim C3: from an idle state with the cursor open, a history page request
is issued, and afterwards hasMoreOlder is false exactly when the returned
page was empty; an empty page stops all further requests, while a non-empty
page is prepended and leaves pagination open. -/
theorem loadOlder_hasMore (s : ChatState) (older : List Message)
    (hidle : s.loadingOlder = false) (hmore : s.hasMoreOlder = true) :
    (loadOlderMessages s (Except.ok older)).2 = true ∧
    ((loadOlderMessages s (Except.ok older)).1.hasMoreOlder = false ↔ older = []) ∧
    (older = [] →
      ∀ resp, (loadOlderMessages (loadOlderMessages s (Except.ok older)).1 resp).2 = false) ∧
    (older ≠ [] →
      (loadOlderMessages s (Except.ok older)).1.hasMoreOlder = true ∧
      (loadOlderMessages s (Except.ok older)).1.messages = older ++ s.messages) := by
  refine ⟨?_, ?_, ?_, ?_⟩
  · cases older <;> simp [loadOlderMessages, hidle, hmore]
  · cases older <;> simp [loadOlderMessages, hidle, hmore]
  · intro h resp
    subst h
    simp [loadOlderMessages, hidle, hmore]
  · intro h
    cases older with
    | nil => exact absurd rfl h
    | cons a l => simp [loadOlderMessages, hidle, hmore]

/-- Witness for C3 at concrete inputs: an empty page closes pagination and a
later request is suppressed. -/
theorem loadOlder_hasMore_witness :
    (loadOlderMessages baseState (Except.ok [])).2 = true ∧
    ((loadOlderMessages baseState (Except.ok [])).1.hasMoreOlder = false ↔
      ([] : List Message) = []) ∧
    (([] : List Message) = [] →
      ∀ resp,
        (loadOlderMessages (loadOlderMessages baseState (Except.ok [])).1 resp).2 = false) ∧
    (([] : List Message) ≠ [] →
      (loadOlderMessages baseState (Except.ok [])).1.hasMoreOlder = true ∧
      (loadOlderMessages baseState (Except.ok [])).1.messages =
        [] ++ baseState.messages) :=
  loadOlder_hasMore baseState [] rfl rfl

/-- Claim C5: validateFile rejects exactly the attachments whose size exceeds
5MB or whose content type is outside the allow-list, and when it rejects an
attached file the submit run attempts no upload, emits no send, and surfaces
the failure, all before persistence could be reached. -/
theorem validateFile_allowList (f : FileMeta) (user : String) (s : ChatState)
    (env : SendEnv) (hf : s.file = some f) (hidle : s.loading = false) :
    (validateFile f = Except.ok true ↔
      (f.size ≤ maxFileSize ∧ f.type ∈ allowedTypes)) ∧
    ((maxFileSize < f.size ∨ f.type ∉ allowedTypes) →
      (sendMessage user s env).2 = [] ∧
      ∃ e, (sendMessage user s env).1.error = some e) := by
  constructor
  · constructor
    · intro h
      by_cases h1 : f.size > maxFileSize
      · simp [validateFile, h1] at h
      · by_cases h2 : f.type ∈ allowedTypes
        · exact ⟨Nat.le_of_not_lt h1, h2⟩
        · simp [validateFile, h1, h2] at h
    · intro ⟨h1, h2⟩
      simp [validateFile, Nat.not_lt_of_le h1, h2]
  · intro h
    have hv : validateFile f = Except.error "File size too large" ∨
        validateFile f = Except.error "Invalid file type" := by
      rcases h with h | h
      · left; simp [validateFile, h]
      · by_cases h1 : f.size > maxFileSize
        · left; simp [validateFile, h1]
        · right; simp [validateFile, h1, h]
    have hguard : ¬ ((jsTrim s.message = "" ∧ s.file = none) ∨ s.loading) := by
      simp [hf, hidle]
    rcases hv with hv | hv <;>
      simp [sendMessage, hguard, hf, hv, hidle]

/-- Witness for C5 at a concrete input: a 6MB jpeg is rejected by size before
any upload, and the acceptance criterion holds for it vacuously. -/
theorem validateFile_allowList_witness :
    (validateFile { size := 6 * 1024 * 1024, type := "image/jpeg" } = Except.ok true ↔
      ((6 * 1024 * 1024 : Nat) ≤ maxFileSize ∧ "image/jpeg" ∈ allowedTypes)) ∧
    ((maxFileSize < 6 * 1024 * 1024 ∨ "image/jpeg" ∉ allowedTypes) →
      (sendMessage "alice"
        { baseState with file := some { size := 6 * 1024 * 1024, type := "image/jpeg" } }
        { localId := "local-1", now := 0, uploadResult := Except.error "unused",
          ackArrival := none }).2 = [] ∧
      ∃ e, (sendMessage "alice"
        { baseState with file := some { size := 6 * 1024 * 1024, type := "image/jpeg" } }
        { localId := "local-1", now := 0, uploadResult := Except.error "unused",
          ackArrival := none }).1.error = some e) :=
  validateFile_allowList { size := 6 * 1024 * 1024, type := "image/jpeg" } "alice"
    { baseState with file := some { size := 6 * 1024 * 1024, type := "image/jpeg" } }
    { localId := "local-1", now := 0, uploadResult := Except.error "unused",
      ackArrival := none } rfl rfl

/-- Every entry of a markFailed list that carries the local id has status
failed. -/
lemma markFailed_all_failed (lid : String) (msgs : List Message) :
    ∀ m ∈ markFailed lid msgs, m.id = lid → m.status = some MsgStatus.failed := by
  intro m hm hid
  simp only [markFailed, List.mem_map] at hm
  obtain ⟨a, _, ha⟩ := hm
  by_cases h : a.id = lid
  · rw [← ha]
    simp [h]
  · rw [← ha] at hid
    simp [h] at hid

/-- An entry carrying the local id survives markFailed with its id intact. -/
lemma markFailed_keeps_id (lid : String) (msgs : List Message) (m : Message)
    (hm : m ∈ msgs) (hid : m.id = lid) :
    ∃ m2 ∈ markFailed lid msgs, m2.id = lid := by
  refine ⟨{ m with status := some MsgStatus.failed }, ?_, hid⟩
  simp only [markFailed, List.mem_map]
  exact ⟨m, hm, by simp [hid]⟩

/-- Claim C1: when the submit guard passes, the attachment step (if any)
succeeds, and no acknowledgement arrives within the 10-second bound, the
submitter's local copy under the client-generated local id ends with status
failed — also when the acknowledgement does arrive late and reports success. -/
theorem sendTimeout_marks_failed (user : String) (s : ChatState) (env : SendEnv)
    (hguard : ¬ ((jsTrim s.message = "" ∧ s.file = none) ∨ s.loading))
    (hfile : s.file = none ∨ ∃ f, s.file = some f ∧ validateFile f = Except.ok true ∧
      ∃ url, env.uploadResult = Except.ok url)
    (hlate : ∀ t p, env.ackArrival = some (t, p) → sendTimeoutMs ≤ t) :
    (∃ m ∈ (sendMessage user s env).1.messages, m.id = env.localId) ∧
    (∀ m ∈ (sendMessage user s env).1.messages, m.id = env.localId →
      m.status = some MsgStatus.failed) := by
  have hrace : race env.ackArrival = RaceResult.timedOut := by
    cases hack : env.ackArrival with
    | none => rfl
    | some tp =>
        have := hlate tp.1 tp.2 (by rw [hack])
        simp [race, Nat.not_lt_of_le this]
  have key : ∀ s1 : ChatState, ∀ fileUrl effs,
      (∃ m ∈ (sendPhase user s1 env fileUrl effs).1.messages, m.id = env.localId) ∧
      (∀ m ∈ (sendPhase user s1 env fileUrl effs).1.messages, m.id = env.localId →
        m.status = some MsgStatus.failed) := by
    intro s1 fileUrl effs
    simp only [sendPhase, hrace]
    constructor
    · exact markFailed_keeps_id env.localId _
        { id := env.localId, room := s1.currentRoom, sender := user,
          text := jsTrim s1.message, fileUrl := fileUrl, timestamp := env.now,
          status := some MsgStatus.sending }
        (by simp) rfl
    · exact markFailed_all_failed env.localId _
  have hload : s.loading = false := by
    cases hL : s.loading
    · rfl
    · exact absurd (Or.inr (by simp [hL])) hguard
  rcases hfile with hnone | ⟨f, hsome, hval, url, hup⟩
  · have htrim : ¬ jsTrim s.message = "" := fun hA => hguard (Or.inl ⟨hA, hnone⟩)
    simpa [sendMessage, hnone, htrim, hload] using
      key { s with loading := true, error := none } none []
  · simpa [sendMessage, hsome, hval, hup, hload] using
      key { s with loading := true, error := none, file := none }
        (some url) [Effect.upload]

/-- Witness for C1 at concrete inputs: submitting with an acknowledgement that
arrives late yet successful still leaves the local copy failed. -/
theorem sendTimeout_marks_failed_witness :
    (∃ m ∈ (sendMessage "alice" fileSendState lateAckEnv).1.messages,
        m.id = lateAckEnv.localId) ∧
    (∀ m ∈ (sendMessage "alice" fileSendState lateAckEnv).1.messages,
        m.id = lateAckEnv.localId → m.status = some MsgStatus.failed) :=
  sendTimeout_marks_failed "alice" fileSendState lateAckEnv
    (by
      rintro (⟨_, hfn⟩ | hl)
      · exact Option.noConfusion hfn
      · exact Bool.noConfusion hl)
    (Or.inr ⟨{ size := 10, type := "image/png" }, rfl, rfl,
      "http://blob/1", rfl⟩)
    (by
      intro t p h
      simp only [lateAckEnv, Option.some.injEq, Prod.mk.injEq] at h
      rw [← h.1]
      decide)

/-- Counterexample to C2 as stated: submitting whitespace-only text with no
attachment leaves the error field empty and produces no effect at all — the
submission is silently dropped, no ValidationError is surfaced to the caller. -/
theorem empty_submit_counterexample :
    (sendMessage "alice" emptySubmitState idleEnv).1.error = none ∧
    (sendMessage "alice" emptySubmitState idleEnv).2 = [] ∧
    (sendMessage "alice" emptySubmitState idleEnv).1 = emptySubmitState :=
  ⟨rfl, rfl, rfl⟩

/-- Claim C2 amended: a submission whose trimmed text is empty and whose
attachment is absent returns at once with the state unchanged and no effects,
so it never reaches upload, send or persistence — but the rejection is
silent: no ValidationError is surfaced. -/
theorem empty_submit_amended (user : String) (s : ChatState) (env : SendEnv)
    (hempty : jsTrim s.message = "" ∧ s.file = none) :
    sendMessage user s env = (s, []) := by
  unfold sendMessage
  rw [if_pos (Or.inl hempty)]

/-- Witness for the amended C2 at concrete inputs. -/
theorem empty_submit_amended_witness :
    sendMessage "alice" emptySubmitState idleEnv = (emptySubmitState, []) :=
  empty_submit_amended "alice" emptySubmitState idleEnv ⟨rfl, rfl⟩

/-- On a well-formed typing state, clearing the ref timer empties the pending
set. -/
lemma cancelRef_of_wf (st : TypingTimers) (hwf : st.wf) : cancelRef st = [] := by
  rcases hwf with h | ⟨i, t, hp, hr⟩
  · simp [cancelRef, h]
  · simp [cancelRef, hp, hr]

/-- Claim C6: a typing-effect run with input present schedules exactly one
stop-typing timer, due 1000ms after the run (repeated runs reset the single
timer, last-write-wins, rather than stacking); once time reaches the expiry
with no further signal the indicator clears; a message submission clears the
indicator and the timer at once; and every run preserves the one-pending-timer
discipline. -/
theorem typing_expiry (st : TypingTimers) (t now : Nat) (hwf : st.wf) :
    ((typingEffect st t true).pending = [(st.nextId, t + 1000)] ∧
     (typingEffect st t true).typing = true) ∧
    (t + 1000 ≤ now →
      (fireTimers (typingEffect st t true) now).typing = false ∧
      (fireTimers (typingEffect st t true) now).pending = []) ∧
    ((sendClear (typingEffect st t true)).typing = false ∧
     (sendClear (typingEffect st t true)).pending = []) ∧
    (∀ b, (typingEffect st t b).wf) := by
  have hc := cancelRef_of_wf st hwf
  have heff : typingEffect st t true =
      { pending := [(st.nextId, t + 1000)], ref := some st.nextId,
        nextId := st.nextId + 1, typing := true } := by
    simp [typingEffect, hc]
  refine ⟨⟨?_, ?_⟩, ?_, ⟨?_, ?_⟩, ?_⟩
  · rw [heff]
  · rw [heff]
  · intro hl
    rw [heff]
    constructor <;> simp [fireTimers, hl]
  · rw [heff]
    rfl
  · rw [heff]
    simp [sendClear, cancelRef]
  · intro b
    cases b
    · exact Or.inl (by simp [typingEffect, hc])
    · rw [heff]
      exact Or.inr ⟨st.nextId, t + 1000, rfl, rfl⟩

/-- Witness for C6 at concrete inputs: a second keystroke 300ms after the
first replaces the pending timer (fire time moves from 1000 to 1300), the
indicator auto-clears once the clock passes 1300, and a submission clears it
immediately. -/
theorem typing_expiry_witness :
    ((typingEffect (typingEffect typingInit 0 true) 300 true).pending =
        [((typingEffect typingInit 0 true).nextId, 300 + 1000)] ∧
     (typingEffect (typingEffect typingInit 0 true) 300 true).typing = true) ∧
    (300 + 1000 ≤ 1300 →
      (fireTimers (typingEffect (typingEffect typingInit 0 true) 300 true) 1300).typing
          = false ∧
      (fireTimers (typingEffect (typingEffect typingInit 0 true) 300 true) 1300).pending
          = []) ∧
    ((sendClear (typingEffect (typingEffect typingInit 0 true) 300 true)).typing = false ∧
     (sendClear (typingEffect (typingEffect typingInit 0 true) 300 true)).pending = []) ∧
    (∀ b, (typingEffect (typingEffect typingInit 0 true) 300 b).wf) :=
  typing_expiry (typingEffect typingInit 0 true) 300 1300
    (Or.inr ⟨0, 1000, rfl, rfl⟩)

/-- Claim C7: page with limit 20 and cursor T returns only messages of the
requested room strictly older than T, and at most 20 of them. -/
theorem page_cursor_bound (store : List Message) (room : String) (T : Nat) :
    (∀ m ∈ (page store room 20 T).1, m.timestamp < T ∧ m.room = room) ∧
    (page store room 20 T).1.length ≤ 20 := by
  constructor
  · intro m hm
    rw [page, List.mem_reverse] at hm
    have hmem := List.mem_of_mem_take hm
    rw [List.mem_insertionSort] at hmem
    have := List.of_mem_filter hmem
    have hp := of_decide_eq_true this
    exact ⟨hp.2, hp.1⟩
  · rw [page]
    simp only [List.length_reverse, List.length_take]
    exact Nat.min_le_left _ _

/-- Claim C8: the default history fetch returns at most 50 messages, all of
the requested room, in chronological order, and they are the most recent ones
(any stored message of the room left out is no newer than any returned one);
the client replaces its message list with exactly that sequence and clears the
room's unread counter. -/
theorem defaultFetch_recent (store : List Message) (s : ChatState) :
    (fetchMessages s (defaultFetch store s.currentRoom)).messages =
        defaultFetch store s.currentRoom ∧
    (fetchMessages s (defaultFetch store s.currentRoom)).unreadCount s.currentRoom = 0 ∧
    (defaultFetch store s.currentRoom).length ≤ 50 ∧
    (∀ m ∈ defaultFetch store s.currentRoom, m.room = s.currentRoom) ∧
    List.Sorted (fun a b : Message => a.timestamp ≤ b.timestamp)
        (defaultFetch store s.currentRoom) ∧
    (∀ x ∈ defaultFetch store s.currentRoom, ∀ y ∈ store, y.room = s.currentRoom →
      y ∉ defaultFetch store s.currentRoom → y.timestamp ≤ x.timestamp) := by
  set l := (store.filter fun m => decide (m.room = s.currentRoom)).insertionSort byRecency
    with hl
  have hsorted : List.Sorted byRecency l := List.sorted_insertionSort byRecency _
  refine ⟨by simp [fetchMessages], by simp [fetchMessages], ?_, ?_, ?_, ?_⟩
  · rw [defaultFetch]
    simp only [List.length_reverse, List.length_take]
    exact Nat.min_le_left _ _
  · intro m hm
    rw [defaultFetch, List.mem_reverse] at hm
    have hmem := List.mem_of_mem_take hm
    rw [List.mem_insertionSort] at hmem
    exact of_decide_eq_true (List.mem_filter.mp hmem).2
  · rw [defaultFetch]
    rw [List.Sorted, List.pairwise_reverse]
    exact List.Pairwise.sublist (List.take_sublist 50 l) hsorted
  · intro x hx y hy hroom hyout
    rw [defaultFetch, List.mem_reverse] at hx
    rw [defaultFetch, List.mem_reverse] at hyout
    have hyl : y ∈ l := by
      rw [hl, List.mem_insertionSort]
      exact List.mem_filter_of_mem hy (decide_eq_true hroom)
    have hyd : y ∈ l.drop 50 := by
      rcases (List.mem_append.mp (by rw [List.take_append_drop 50 l]; exact hyl)) with h | h
      · exact absurd h hyout
      · exact h
    exact hsorted.rel_of_mem_take_of_mem_drop hx hyd

/-- Entries without the local id pass through reconcile untouched. -/
lemma reconcile_fresh (lid : String) (sid : Option String) (l : List Message)
    (h : ∀ m ∈ l, m.id ≠ lid) : reconcile lid sid l = l := by
  induction l with
  | nil => rfl
  | cons a l ih =>
      have ha := h a (List.mem_cons_self a l)
      have hl := fun m hm => h m (List.mem_cons_of_mem a hm)
      simp only [reconcile, List.map_cons] at ih ⊢
      rw [if_neg ha, ih hl]

/-- reconcile distributes over list append. -/
lemma reconcile_append (lid : String) (sid : Option String) (l1 l2 : List Message) :
    reconcile lid sid (l1 ++ l2) = reconcile lid sid l1 ++ reconcile lid sid l2 := by
  simp [reconcile]

/-- Counterexample to C4 as stated: with the spec-modelled fan-out the sender
is a broadcast recipient, and after the acknowledgement reconciled the
optimistic copy to srv1 the receive handler appends the canonical copy as
well, so the sender's timeline holds two entries for the message, not one. -/
theorem broadcast_dup_counterexample :
    "alice" ∈ broadcastRecipients ["alice", "bob"] ∧
    ((onReceiveMessage (sendMessage "alice" sendState demoAckEnv).1
        canonicalMsg).messages.filter (fun m => decide (m.id = "srv1"))).length = 2 :=
  ⟨by decide, by decide⟩

/-- Claim C4 amended: the persisted message is fanned out to all members
excluding none (spec-modelled), and the sender reconciles its optimistic copy
through the acknowledgement callback keyed by the client-generated local id —
but the canonical broadcast copy is appended to the timeline without
de-duplication, so after receiving it the sender's timeline holds exactly two
entries carrying the durable identity. -/
theorem broadcast_reconcile_amended (user sid : String) (s : ChatState)
    (env : SendEnv) (p : AckPayload) (t : Nat) (canonical : Message)
    (hguard : ¬ ((jsTrim s.message = "" ∧ s.file = none) ∨ s.loading))
    (hnofile : s.file = none)
    (hack : env.ackArrival = some (t, p)) (ht : t < sendTimeoutMs)
    (hsucc : p.success = true) (hsid : p.serverId = some sid)
    (hcroom : canonical.room = s.currentRoom) (hcid : canonical.id = sid)
    (hfresh : ∀ m ∈ s.messages, m.id ≠ env.localId ∧ m.id ≠ sid) :
    (∃ m ∈ (sendMessage user s env).1.messages,
        m.id = sid ∧ m.status = some MsgStatus.delivered) ∧
    ((onReceiveMessage (sendMessage user s env).1 canonical).messages.filter
        (fun m => decide (m.id = sid))).length = 2 := by
  have hrace : race env.ackArrival = RaceResult.acked p := by
    rw [hack]
    simp [race, ht]
  have hres : (sendMessage user s env).1 =
      { s with loading := false, message := "", error := none, file := none,
               messages := reconcile env.localId p.serverId (s.messages ++
                 [{ id := env.localId, room := s.currentRoom, sender := user,
                    text := jsTrim s.message, fileUrl := none, timestamp := env.now,
                    status := some MsgStatus.sending }]) } := by
    unfold sendMessage
    rw [if_neg hguard]
    simp only [hnofile, sendPhase, hrace, hsucc, if_pos]
  have hmsgs : (sendMessage user s env).1.messages = s.messages ++
      [{ id := sid, room := s.currentRoom, sender := user,
         text := jsTrim s.message, fileUrl := none, timestamp := env.now,
         status := some MsgStatus.delivered }] := by
    rw [hres]
    show reconcile env.localId p.serverId _ = _
    rw [reconcile_append,
      reconcile_fresh env.localId p.serverId s.messages (fun m hm => (hfresh m hm).1)]
    simp [reconcile, hsid]
  refine ⟨?_, ?_⟩
  · rw [hmsgs]
    refine Exists.intro
      { id := sid, room := s.currentRoom, sender := user,
        text := jsTrim s.message, fileUrl := none, timestamp := env.now,
        status := some MsgStatus.delivered } ⟨?_, rfl, rfl⟩
    exact List.mem_append_right _ (List.mem_singleton_self _)
  · have hroom : (sendMessage user s env).1.currentRoom = s.currentRoom := by
      rw [hres]
    have happ : (onReceiveMessage (sendMessage user s env).1 canonical).messages =
        (sendMessage user s env).1.messages ++ [canonical] := by
      unfold onReceiveMessage
      rw [if_neg (by rw [hroom, hcroom]; exact fun h => h rfl)]
    rw [happ, hmsgs, List.filter_append, List.filter_append]
    have h0 : s.messages.filter (fun m => decide (m.id = sid)) = [] := by
      rw [List.filter_eq_nil_iff]
      intro m hm
      simpa using (hfresh m hm).2
    rw [h0]
    simp [hcid]

/-- Witness for the amended C4 at the concrete scenario: alice submits "hi",
the ack arrives at 100ms with durable id srv1, then the canonical copy is
received; the reconciled delivered entry exists and the timeline holds two
srv1 entries. -/
theorem broadcast_reconcile_amended_witness :
    (∃ m ∈ (sendMessage "alice" sendState demoAckEnv).1.messages,
        m.id = "srv1" ∧ m.status = some MsgStatus.delivered) ∧
    ((onReceiveMessage (sendMessage "alice" sendState demoAckEnv).1
        canonicalMsg).messages.filter (fun m => decide (m.id = "srv1"))).length = 2 :=
  broadcast_reconcile_amended "alice" "srv1" sendState demoAckEnv
    { success := true, serverId := some "srv1", error := none } 100 canonicalMsg
    (by decide) rfl rfl (by decide) rfl rfl rfl rfl
    (fun m hm => absurd hm (List.not_mem_nil m))

/-- Witness for C7 at concrete inputs: paging the demo store before T = 25. -/
theorem page_cursor_bound_witness :
    (∀ m ∈ (page demoStore "general" 20 25).1, m.timestamp < 25 ∧ m.room = "general") ∧
    (page demoStore "general" 20 25).1.length ≤ 20 :=
  page_cursor_bound demoStore "general" 25

/-- Witness for C8 at concrete inputs: the default fetch for the viewed room
of the base state over the demo store. -/
theorem defaultFetch_recent_witness :
    (fetchMessages baseState (defaultFetch demoStore baseState.currentRoom)).messages =
        defaultFetch demoStore baseState.currentRoom ∧
    (fetchMessages baseState
        (defaultFetch demoStore baseState.currentRoom)).unreadCount
        baseState.currentRoom = 0 ∧
    (defaultFetch demoStore baseState.currentRoom).length ≤ 50 ∧
    (∀ m ∈ defaultFetch demoStore baseState.currentRoom,
        m.room = baseState.currentRoom) ∧
    List.Sorted (fun a b : Message => a.timestamp ≤ b.timestamp)
        (defaultFetch demoStore baseState.currentRoom) ∧
    (∀ x ∈ defaultFetch demoStore baseState.currentRoom, ∀ y ∈ demoStore,
        y.room = baseState.currentRoom →
        y ∉ defaultFetch demoStore baseState.currentRoom →
        y.timestamp ≤ x.timestamp) :=
  defaultFetch_recent demoStore baseState

end ChatCore
